import Mathlib

/-!
Shallow embedding of the usage aggregation and prediction engine of
claude-usage-monitor-cli (Node.js sources: lib/utils/claude-data.js,
lib/plans.js, lib/monitor.js, lib/utils/timezone.js, lib/cli.js).

JavaScript numbers holding token counts are modelled as `Nat` (the log
format supplies non-negative integers); epoch-millisecond dates as `Int`.
A JavaScript `Date` may be an Invalid Date (its time value is NaN); we
model a date value as `Option Int`, `none` standing for Invalid Date, and
comparisons against it are `false`, as NaN comparisons are in JS.
Optional fields of raw JSON objects are `Option _`, `none` = absent.
-/

/-- JS Date value: `some t` is a valid date at epoch-ms `t`; `none` is an Invalid Date. -/
abbrev JSDate := Option Int

/-- JS `a || b` on an optional numeric field: `a` wins iff present and truthy (nonzero). -/
def jsOr (x : Option Nat) (y : Nat) : Nat :=
  match x with
  | some v => if v = 0 then y else v
  | none => y

/-- Truthiness of an optional JS string: absent and `""` are falsy. -/
def jsTruthyStr (x : Option String) : Option String :=
  match x with
  | some s => if s = "" then none else some s
  | none => none

/-- JS `a || b` on optional string fields (empty string is falsy). -/
def jsOrStr (x y : Option String) : Option String :=
  match jsTruthyStr x with
  | some s => some s
  | none => jsTruthyStr y

/-- JS `<` on Date time values: any comparison involving an Invalid Date (NaN) is false. -/
def jsLtD (a b : JSDate) : Bool :=
  match a, b with
  | some x, some y => decide (x < y)
  | _, _ => false

/-- JS `<=` on Date time values: any comparison involving an Invalid Date (NaN) is false. -/
def jsLeD (a b : JSDate) : Bool :=
  match a, b with
  | some x, some y => decide (x ≤ y)
  | _, _ => false

/-- A nested usage object of one raw JSONL record (claude-data.js `extractMessageUsage`
reads these fields; each is absent or a non-negative integer). -/
structure RawUsage where
  total_tokens : Option Nat := none
  totalTokens : Option Nat := none
  input_tokens : Option Nat := none
  inputTokens : Option Nat := none
  prompt_tokens : Option Nat := none
  output_tokens : Option Nat := none
  outputTokens : Option Nat := none
  completion_tokens : Option Nat := none
  cache_creation_input_tokens : Option Nat := none
  cacheCreationTokens : Option Nat := none
  cache_read_input_tokens : Option Nat := none
  cacheReadTokens : Option Nat := none
deriving DecidableEq, Repr

/-- One parsed JSONL log entry, restricted to the fields the aggregator reads.
`response_usage` stands for `entry.response?.usage`, `metadata_usage` for
`entry.metadata?.usage`, `response_model` for `entry.response?.model`.
`created_at`/`timestamp` hold the JS Date the string field parses to
(outer `none` = field absent/falsy, inner `none` = unparseable → Invalid Date). -/
structure RawEntry where
  type : Option String := none
  sender : Option String := none
  usage : Option RawUsage := none
  response_usage : Option RawUsage := none
  metadata_usage : Option RawUsage := none
  stats : Option RawUsage := none
  model : Option String := none
  response_model : Option String := none
  created_at : Option JSDate := none
  timestamp : Option JSDate := none
deriving DecidableEq, Repr

/-- The record `extractMessageUsage` returns for a usage-bearing message. -/
structure UsageRec where
  totalTokens : Nat
  inputTokens : Nat
  outputTokens : Nat
  cacheCreationTokens : Nat
  cacheReadTokens : Nat
  model : Option String
  timestamp : JSDate
deriving DecidableEq, Repr

/-- claude-data.js: `new Date(entry.created_at || entry.timestamp)`; if both fields are
absent the constructed Date is Invalid. -/
def tsOf (m : RawEntry) : JSDate :=
  match m.created_at with
  | some d => d
  | none =>
    match m.timestamp with
    | some d => d
    | none => none

/-- claude-data.js: `message.usage || message.response?.usage || message.metadata?.usage
|| message.stats` — the first present usage object wins, tried in that order. -/
def locUsage (m : RawEntry) : Option RawUsage :=
  match m.usage with
  | some u => some u
  | none =>
    match m.response_usage with
    | some u => some u
    | none =>
      match m.metadata_usage with
      | some u => some u
      | none => m.stats

/-- claude-data.js `ClaudeDataReader.extractMessageUsage`: returns `null` when no usage
object is found at any of the four locations, otherwise the normalized record, each
field read through a JS `||`-chain ending in `0`. -/
def extractMessageUsage (m : RawEntry) : Option UsageRec :=
  match locUsage m with
  | none => none
  | some u =>
    some
      { totalTokens := jsOr u.total_tokens (jsOr u.totalTokens 0)
        inputTokens := jsOr u.input_tokens (jsOr u.inputTokens (jsOr u.prompt_tokens 0))
        outputTokens := jsOr u.output_tokens (jsOr u.outputTokens (jsOr u.completion_tokens 0))
        cacheCreationTokens := jsOr u.cache_creation_input_tokens (jsOr u.cacheCreationTokens 0)
        cacheReadTokens := jsOr u.cache_read_input_tokens (jsOr u.cacheReadTokens 0)
        model := jsOrStr m.model m.response_model
        timestamp := tsOf m }

/-- The aggregate accumulated by `extractUsageData` (its `conversations` array is never
written in the source loop and is omitted). `models` is the JS `Set` in insertion
order (`Array.from` at the end preserves it); `timeRangeStart`/`timeRangeEnd` are the
`timeRange.start`/`timeRange.end` fields, `none` = still `null`. -/
structure UsageData where
  totalTokens : Nat
  inputTokens : Nat
  outputTokens : Nat
  cacheCreationTokens : Nat
  cacheReadTokens : Nat
  requestCount : Nat
  models : List String
  timeRangeStart : Option JSDate
  timeRangeEnd : Option JSDate
deriving DecidableEq, Repr

/-- The all-zero aggregate `extractUsageData` starts from. -/
def initUsageData : UsageData :=
  { totalTokens := 0, inputTokens := 0, outputTokens := 0, cacheCreationTokens := 0
    cacheReadTokens := 0, requestCount := 0, models := [], timeRangeStart := none
    timeRangeEnd := none }

/-- JS `Set.add`: insert at the end unless already present. -/
def addModel (ms : List String) (m : String) : List String :=
  if m ∈ ms then ms else ms ++ [m]

/-- claude-data.js: `if (!timeRange.start || timestamp < timeRange.start)` then assign. -/
def updStart (cur : Option JSDate) (ts : JSDate) : Option JSDate :=
  match cur with
  | none => some ts
  | some s => if jsLtD ts s then some ts else some s

/-- claude-data.js: `if (!timeRange.end || timestamp > timeRange.end)` then assign. -/
def updEnd (cur : Option JSDate) (ts : JSDate) : Option JSDate :=
  match cur with
  | none => some ts
  | some s => if jsLtD s ts then some ts else some s

/-- One iteration of the `extractUsageData` loop over entries: only entries with
`type === 'message' && sender === 'assistant'` and a usage object contribute;
`usage.totalTokens || 0` etc. are the identity here since the extracted fields are
already numbers (`0 || 0 = 0`). -/
def foldStep (acc : UsageData) (e : RawEntry) : UsageData :=
  if e.type = some "message" ∧ e.sender = some "assistant" then
    match extractMessageUsage e with
    | some u =>
      { totalTokens := acc.totalTokens + u.totalTokens
        inputTokens := acc.inputTokens + u.inputTokens
        outputTokens := acc.outputTokens + u.outputTokens
        cacheCreationTokens := acc.cacheCreationTokens + u.cacheCreationTokens
        cacheReadTokens := acc.cacheReadTokens + u.cacheReadTokens
        requestCount := acc.requestCount + 1
        models :=
          match u.model with
          | some m => addModel acc.models m
          | none => acc.models
        timeRangeStart := updStart acc.timeRangeStart (tsOf e)
        timeRangeEnd := updEnd acc.timeRangeEnd (tsOf e) }
    | none => acc
  else acc

/-- claude-data.js `ClaudeDataReader.extractUsageData`: fold all entries of a
conversation into a usage aggregate. -/
def extractUsageData (entries : List RawEntry) : UsageData :=
  entries.foldl foldStep initUsageData

/-- The usage record an entry contributes, if any: the body of the `extractUsageData`
loop condenses to this per-entry extraction. -/
def extractRecord (e : RawEntry) : Option UsageRec :=
  if e.type = some "message" ∧ e.sender = some "assistant" then extractMessageUsage e
  else none

/-- Whether an entry is counted by the aggregator: assistant message carrying a usage
object at one of the four locations. -/
def qualifies (e : RawEntry) : Bool :=
  (e.type == some "message") && (e.sender == some "assistant") && (locUsage e).isSome

/-- plans.js: a plan configuration. -/
structure Plan where
  name : String
  limit_per_5h : Nat
  daily_limit : Nat
  description : String
deriving DecidableEq, Repr

/-- plans.js `PLANS.pro`. -/
def planPro : Plan :=
  { name := "Claude Pro", limit_per_5h := 1000, daily_limit := 5000
    description := "Claude Pro plan - High message limits" }

/-- plans.js `PLANS.max5`. -/
def planMax5 : Plan :=
  { name := "Claude Max5", limit_per_5h := 40, daily_limit := 200
    description := "Claude Max plan - 5 conversations per day" }

/-- plans.js `PLANS.max20`. -/
def planMax20 : Plan :=
  { name := "Claude Max20", limit_per_5h := 160, daily_limit := 800
    description := "Claude Max plan - 20 conversations per day" }

/-- plans.js `PLANS.custom`. -/
def planCustom : Plan :=
  { name := "Custom Plan", limit_per_5h := 100, daily_limit := 500
    description := "Custom plan - Configurable limits" }

/-- plans.js `PLANS`: the plan table, keyed by identifier. -/
def PLANS : List (String × Plan) :=
  [("pro", planPro), ("max5", planMax5), ("max20", planMax20), ("custom", planCustom)]

/-- JS `String.prototype.toLowerCase` on the ASCII plan identifiers: lower-case each
character. -/
def jsToLower (s : String) : String :=
  ⟨s.data.map Char.toLower⟩

/-- plans.js `PlanConfig.getPlan`: `PLANS[planName.toLowerCase()] || PLANS.pro` —
an unknown identifier silently falls back to the pro plan. -/
def getPlan (planName : String) : Plan :=
  (PLANS.lookup (jsToLower planName)).getD planPro

/-- Whether a plan identifier names a configured plan (a key of `PLANS`). -/
def isKnownPlan (planName : String) : Bool :=
  (PLANS.lookup (jsToLower planName)).isSome

/-- cli.js `run()`, configuration phase (before the monitor is built and before any
file I/O): only the timezone is validated — `if (!TimeZone.isValidTimezone(tz))
return 1` — the `--plan` value is passed through unchecked (the parser stores but
never enforces the option's `choices`). `isValidTz` abstracts the external
`Intl`-backed `TimeZone.isValidTimezone`. Result `some 1` = abort with exit code 1,
`none` = proceed to command dispatch. -/
def checkConfigPhase (isValidTz : String → Bool) (tz : String) : Option Nat :=
  if isValidTz tz then none else some 1

/-- cli.js `displayMonitorData`:
`windowPercent = Math.min(requestCount / 5 / windowLimit * 100, 100)`
(the subsequent `.toFixed(1)` is rendering only). -/
def windowPercent (requestCount windowLimit : Nat) : ℚ :=
  min ((requestCount : ℚ) / 5 / (windowLimit : ℚ) * 100) 100

/-- cli.js `displayMonitorData`: `dailyPercent = requestCount / dailyLimit * 100`
(no cap; `.toFixed(1)` is rendering only). -/
def dailyPercent (requestCount dailyLimit : Nat) : ℚ :=
  (requestCount : ℚ) / (dailyLimit : ℚ) * 100

/-- cli.js `displayMonitorData`:
`const burnRatePerHour = totals.requestCount / 24` — a fixed 24-hour divisor;
no elapsed-time input exists in the source. -/
def burnRatePerHour (requestCount : Nat) : ℚ :=
  (requestCount : ℚ) / 24

/-- cli.js `displayMonitorData`: the burn-rate line is printed inside
`if (burnRatePerHour > 0)`. -/
def burnInfoShown (requestCount : Nat) : Bool :=
  decide (0 < burnRatePerHour requestCount)

/-- claude-data.js `ClaudeDataReader.filterByDateRange`: the body is a stub —
"This would be implemented to filter the raw conversation entries by date range
before processing usage data. For now, return the original data." -/
def filterByDateRange (usageData : UsageData) (startDate endDate : JSDate) : UsageData :=
  usageData

/-- timezone.js `DateRange.contains`: `date >= this.start && date <= this.end`
(inclusive both ends; false for an Invalid Date). -/
def rangeContains (rangeStart rangeEnd : Int) (d : JSDate) : Bool :=
  jsLeD (some rangeStart) d && jsLeD d (some rangeEnd)

/-- claude-data.js `readJSONLFile`, line loop: blank lines are dropped
(`.filter(line => line.trim())`), each remaining line is `JSON.parse`d inside a
per-line try/catch — a failing line is skipped and a warning recorded, the loop
continues. `parseLine` abstracts `JSON.parse` + the JSON-to-record reading; the
result is the entry list in order together with the number of warnings. The
function is total: no input makes it throw. -/
def processJSONLLines (parseLine : String → Option RawEntry) (rawLines : List String) :
    List RawEntry × Nat :=
  let lines := rawLines.filter (fun l => l.trim != "")
  lines.foldl
    (fun acc line =>
      match parseLine line with
      | some entry => (acc.1 ++ [entry], acc.2)
      | none => (acc.1, acc.2 + 1))
    ([], 0)

/-- One cache slot of claude-data.js: `{ data: entries, timestamp: Date.now() }`. -/
structure CacheEntry where
  data : List RawEntry
  timestamp : Int
deriving DecidableEq, Repr

/-- The reader's mutable state: the `Map` from cache key to entry. The JS key is the
string `` `${filePath}:${mtime}` ``; since the mtime suffix after the last colon
determines the split uniquely, the pair `(filePath, mtime)` is an equivalent key. -/
structure ReaderState where
  cache : List ((String × Int) × CacheEntry)
deriving DecidableEq, Repr

/-- JS `Map.set`: replace any entry at the key, keeping other keys intact. -/
def mapSet (cache : List ((String × Int) × CacheEntry)) (k : String × Int) (v : CacheEntry) :
    List ((String × Int) × CacheEntry) :=
  (k, v) :: cache.filter (fun p => p.1 != k)

/-- claude-data.js `ClaudeDataReader.readJSONLFile`: compute the file's current
mtime, build the cache key; on a cache hit younger than `cacheTimeout` return the
cached entries, otherwise re-parse the file and replace the cache entry. The
filesystem is abstracted as `fs : path ↦ (lines, mtime)`; `now` is `Date.now()`.
Returns (entries, whether a parse happened, next state). -/
def readJSONLFile (parseLine : String → Option RawEntry) (cacheTimeout : Int)
    (fs : String → List String × Int) (now : Int) (st : ReaderState) (filePath : String) :
    List RawEntry × Bool × ReaderState :=
  let mtime := (fs filePath).2
  let cacheKey := (filePath, mtime)
  let parsed := (processJSONLLines parseLine (fs filePath).1).1
  let reparse : List RawEntry × Bool × ReaderState :=
    (parsed, true, ⟨mapSet st.cache cacheKey ⟨parsed, now⟩⟩)
  match st.cache.lookup cacheKey with
  | some cached =>
    if now - cached.timestamp < cacheTimeout then (cached.data, false, st) else reparse
  | none => reparse

/-- One millisecond short of a day, in ms. -/
def dayMs : Int := 86400000

/-- A well-formed assistant message at time `ts` with the given input/output tokens
and no direct total (the common shape in the observed log format). -/
def mkAssistantMsg (ts : Int) (inp outp : Nat) : RawEntry :=
  { type := some "message", sender := some "assistant"
    usage := some { input_tokens := some inp, output_tokens := some outp }
    created_at := some (some ts) }

/-- Three one-request records on three consecutive days (days 1, 2 and 3 of the epoch). -/
def entriesThreeDays : List RawEntry :=
  [mkAssistantMsg 0 10 20, mkAssistantMsg dayMs 5 5, mkAssistantMsg (2 * dayMs) 1 1]

/-- A usage object carrying only component token fields and no direct total. -/
def usageNoTotal : RawUsage :=
  { input_tokens := some 10, output_tokens := some 20 }

/-- An assistant message whose usage object supplies no direct total-tokens value. -/
def entryNoTotal : RawEntry :=
  { type := some "message", sender := some "assistant", usage := some usageNoTotal }

/-! Aggregator lemmas: each numeric field of the fold is the accumulator's field plus
the sum of the corresponding field over the records the entries contribute. -/

theorem extractMessageUsage_eq_none (e : RawEntry) (h : locUsage e = none) :
    extractMessageUsage e = none := by
  simp [extractMessageUsage, h]

theorem foldStep_not_message (acc : UsageData) (e : RawEntry)
    (h : ¬(e.type = some "message" ∧ e.sender = some "assistant")) :
    foldStep acc e = acc := by
  simp [foldStep, h]

theorem foldStep_no_usage (acc : UsageData) (e : RawEntry)
    (h : extractMessageUsage e = none) : foldStep acc e = acc := by
  by_cases hm : e.type = some "message" ∧ e.sender = some "assistant"
  · simp [foldStep, hm, h]
  · exact foldStep_not_message acc e hm

theorem extractRecord_eq_none (e : RawEntry) (h : extractMessageUsage e = none) :
    extractRecord e = none := by
  by_cases hm : e.type = some "message" ∧ e.sender = some "assistant"
  · simp [extractRecord, hm, h]
  · simp [extractRecord, hm]

theorem foldl_totalTokens :
    ∀ (l : List RawEntry) (acc : UsageData),
      (List.foldl foldStep acc l).totalTokens
        = acc.totalTokens + ((l.filterMap extractRecord).map UsageRec.totalTokens).sum := by
  intro l
  induction l with
  | nil => simp
  | cons e t ih =>
    intro acc
    rw [List.foldl_cons, List.filterMap_cons]
    by_cases h : e.type = some "message" ∧ e.sender = some "assistant"
    · cases hu : extractMessageUsage e with
      | none =>
        rw [foldStep_no_usage acc e hu, extractRecord_eq_none e hu, ih]
      | some u =>
        have hrec : extractRecord e = some u := by simp [extractRecord, h, hu]
        rw [hrec, ih]
        simp [foldStep, h, hu]
        omega
    · have hrec : extractRecord e = none := by simp [extractRecord, h]
      rw [foldStep_not_message acc e h, hrec, ih]

theorem foldl_inputTokens :
    ∀ (l : List RawEntry) (acc : UsageData),
      (List.foldl foldStep acc l).inputTokens
        = acc.inputTokens + ((l.filterMap extractRecord).map UsageRec.inputTokens).sum := by
  intro l
  induction l with
  | nil => simp
  | cons e t ih =>
    intro acc
    rw [List.foldl_cons, List.filterMap_cons]
    by_cases h : e.type = some "message" ∧ e.sender = some "assistant"
    · cases hu : extractMessageUsage e with
      | none =>
        rw [foldStep_no_usage acc e hu, extractRecord_eq_none e hu, ih]
      | some u =>
        have hrec : extractRecord e = some u := by simp [extractRecord, h, hu]
        rw [hrec, ih]
        simp [foldStep, h, hu]
        omega
    · have hrec : extractRecord e = none := by simp [extractRecord, h]
      rw [foldStep_not_message acc e h, hrec, ih]

theorem foldl_outputTokens :
    ∀ (l : List RawEntry) (acc : UsageData),
      (List.foldl foldStep acc l).outputTokens
        = acc.outputTokens + ((l.filterMap extractRecord).map UsageRec.outputTokens).sum := by
  intro l
  induction l with
  | nil => simp
  | cons e t ih =>
    intro acc
    rw [List.foldl_cons, List.filterMap_cons]
    by_cases h : e.type = some "message" ∧ e.sender = some "assistant"
    · cases hu : extractMessageUsage e with
      | none =>
        rw [foldStep_no_usage acc e hu, extractRecord_eq_none e hu, ih]
      | some u =>
        have hrec : extractRecord e = some u := by simp [extractRecord, h, hu]
        rw [hrec, ih]
        simp [foldStep, h, hu]
        omega
    · have hrec : extractRecord e = none := by simp [extractRecord, h]
      rw [foldStep_not_message acc e h, hrec, ih]

theorem foldl_cacheCreationTokens :
    ∀ (l : List RawEntry) (acc : UsageData),
      (List.foldl foldStep acc l).cacheCreationTokens
        = acc.cacheCreationTokens
          + ((l.filterMap extractRecord).map UsageRec.cacheCreationTokens).sum := by
  intro l
  induction l with
  | nil => simp
  | cons e t ih =>
    intro acc
    rw [List.foldl_cons, List.filterMap_cons]
    by_cases h : e.type = some "message" ∧ e.sender = some "assistant"
    · cases hu : extractMessageUsage e with
      | none =>
        rw [foldStep_no_usage acc e hu, extractRecord_eq_none e hu, ih]
      | some u =>
        have hrec : extractRecord e = some u := by simp [extractRecord, h, hu]
        rw [hrec, ih]
        simp [foldStep, h, hu]
        omega
    · have hrec : extractRecord e = none := by simp [extractRecord, h]
      rw [foldStep_not_message acc e h, hrec, ih]

theorem foldl_cacheReadTokens :
    ∀ (l : List RawEntry) (acc : UsageData),
      (List.foldl foldStep acc l).cacheReadTokens
        = acc.cacheReadTokens + ((l.filterMap extractRecord).map UsageRec.cacheReadTokens).sum := by
  intro l
  induction l with
  | nil => simp
  | cons e t ih =>
    intro acc
    rw [List.foldl_cons, List.filterMap_cons]
    by_cases h : e.type = some "message" ∧ e.sender = some "assistant"
    · cases hu : extractMessageUsage e with
      | none =>
        rw [foldStep_no_usage acc e hu, extractRecord_eq_none e hu, ih]
      | some u =>
        have hrec : extractRecord e = some u := by simp [extractRecord, h, hu]
        rw [hrec, ih]
        simp [foldStep, h, hu]
        omega
    · have hrec : extractRecord e = none := by simp [extractRecord, h]
      rw [foldStep_not_message acc e h, hrec, ih]

theorem foldl_requestCount :
    ∀ (l : List RawEntry) (acc : UsageData),
      (List.foldl foldStep acc l).requestCount
        = acc.requestCount + (l.filterMap extractRecord).length := by
  intro l
  induction l with
  | nil => simp
  | cons e t ih =>
    intro acc
    rw [List.foldl_cons, List.filterMap_cons]
    by_cases h : e.type = some "message" ∧ e.sender = some "assistant"
    · cases hu : extractMessageUsage e with
      | none =>
        rw [foldStep_no_usage acc e hu, extractRecord_eq_none e hu, ih]
      | some u =>
        have hrec : extractRecord e = some u := by simp [extractRecord, h, hu]
        rw [hrec, ih]
        simp [foldStep, h, hu]
        omega
    · have hrec : extractRecord e = none := by simp [extractRecord, h]
      rw [foldStep_not_message acc e h, hrec, ih]

/-- C2: folding a sequence of entries yields an aggregate whose numeric fields
(totalTokens, inputTokens, outputTokens, cacheCreationTokens, cacheReadTokens) are
the exact sums of those fields over the usage records R the entries contribute, and
whose requestCount is the number of records of R — a per-record count, independent
of any file structure. -/
theorem extractUsageData_sum_invariant (entries : List RawEntry) :
    (extractUsageData entries).totalTokens
        = ((entries.filterMap extractRecord).map UsageRec.totalTokens).sum
    ∧ (extractUsageData entries).inputTokens
        = ((entries.filterMap extractRecord).map UsageRec.inputTokens).sum
    ∧ (extractUsageData entries).outputTokens
        = ((entries.filterMap extractRecord).map UsageRec.outputTokens).sum
    ∧ (extractUsageData entries).cacheCreationTokens
        = ((entries.filterMap extractRecord).map UsageRec.cacheCreationTokens).sum
    ∧ (extractUsageData entries).cacheReadTokens
        = ((entries.filterMap extractRecord).map UsageRec.cacheReadTokens).sum
    ∧ (extractUsageData entries).requestCount = (entries.filterMap extractRecord).length := by
  unfold extractUsageData
  refine ⟨?_, ?_, ?_, ?_, ?_, ?_⟩
  · rw [foldl_totalTokens]; simp [initUsageData]
  · rw [foldl_inputTokens]; simp [initUsageData]
  · rw [foldl_outputTokens]; simp [initUsageData]
  · rw [foldl_cacheCreationTokens]; simp [initUsageData]
  · rw [foldl_cacheReadTokens]; simp [initUsageData]
  · rw [foldl_requestCount]; simp [initUsageData]

theorem foldStep_skip (acc : UsageData) (e : RawEntry) (h : qualifies e = false) :
    foldStep acc e = acc := by
  by_cases hm : e.type = some "message" ∧ e.sender = some "assistant"
  · have hloc : (locUsage e).isSome = false := by
      have := h
      simp only [qualifies, hm.1, hm.2, beq_self_eq_true, Bool.true_and] at this
      exact this
    apply foldStep_no_usage
    cases hl : locUsage e with
    | none => exact extractMessageUsage_eq_none e hl
    | some u => rw [hl] at hloc; simp at hloc
  · exact foldStep_not_message acc e hm

theorem extractRecord_isSome (e : RawEntry) :
    (extractRecord e).isSome = qualifies e := by
  by_cases hm : e.type = some "message" ∧ e.sender = some "assistant"
  · have h1 : extractRecord e = extractMessageUsage e := by simp [extractRecord, hm]
    have h2 : (extractMessageUsage e).isSome = (locUsage e).isSome := by
      cases hl : locUsage e <;> simp [extractMessageUsage, hl]
    rw [h1, h2]
    simp [qualifies, hm.1, hm.2]
  · have h1 : extractRecord e = none := by simp [extractRecord, hm]
    have h2 : ((e.type == some "message") && (e.sender == some "assistant")) = false := by
      by_cases ht : e.type = some "message"
      · have hs : ¬e.sender = some "assistant" := fun hs => hm ⟨ht, hs⟩
        simp [ht, hs]
      · simp [ht]
    have h3 : qualifies e = false := by
      simp only [qualifies, h2, Bool.false_and]
    rw [h1, h3]
    rfl

theorem foldl_filter_qualifies :
    ∀ (l : List RawEntry) (acc : UsageData),
      List.foldl foldStep acc l = List.foldl foldStep acc (l.filter qualifies) := by
  intro l
  induction l with
  | nil => simp
  | cons e t ih =>
    intro acc
    cases hq : qualifies e with
    | true => rw [List.foldl_cons, List.filter_cons_of_pos hq, List.foldl_cons, ih]
    | false => rw [List.foldl_cons, List.filter_cons_of_neg (by simp [hq]), foldStep_skip acc e hq, ih]

theorem length_filterMap_extractRecord :
    ∀ l : List RawEntry, (l.filterMap extractRecord).length = (l.filter qualifies).length := by
  intro l
  induction l with
  | nil => simp
  | cons e t ih =>
    rw [List.filterMap_cons]
    cases hr : extractRecord e with
    | none =>
      have hq : qualifies e = false := by rw [← extractRecord_isSome, hr]; rfl
      rw [List.filter_cons_of_neg (by simp [hq])]
      exact ih
    | some u =>
      have hq : qualifies e = true := by rw [← extractRecord_isSome, hr]; rfl
      rw [List.filter_cons_of_pos hq]
      simp [ih]

/-- C10: the aggregator counts an entry iff it is an assistant message (`type ===
'message'`, `sender === 'assistant'`) carrying a usage object at one of the four
locations tried in order (usage, response.usage, metadata.usage, stats): restricting
the fold to exactly those entries changes nothing in the aggregate — every other
entry contributes nothing to any total, the model set, or the time range — and each
qualifying entry increments requestCount by one. -/
theorem extractUsageData_qualifies_iff (entries : List RawEntry) :
    extractUsageData entries = extractUsageData (entries.filter qualifies)
    ∧ (extractUsageData entries).requestCount = (entries.filter qualifies).length := by
  constructor
  · unfold extractUsageData
    exact foldl_filter_qualifies entries initUsageData
  · rw [(extractUsageData_sum_invariant entries).2.2.2.2.2]
    exact length_filterMap_extractRecord entries

/-- C4: the 5-hour-window usage percentage is `min(windowMessages / windowLimit * 100,
100)` with `windowMessages = requestCount / 5`, hence never exceeds 100 — also when
the raw request count (here 50000 against limit 1000, i.e. ten times `5 * limit`)
vastly exceeds the window. -/
theorem windowPercent_capped :
    (∀ requestCount windowLimit : Nat,
        windowPercent requestCount windowLimit
          = min ((requestCount : ℚ) / 5 / (windowLimit : ℚ) * 100) 100)
    ∧ (∀ requestCount windowLimit : Nat, windowPercent requestCount windowLimit ≤ 100)
    ∧ windowPercent 50000 1000 = 100 := by
  refine ⟨fun _ _ => rfl, fun rc wl => min_le_right _ _, ?_⟩
  rw [windowPercent]
  norm_num

/-- C5: the daily usage percentage is `requestCount / dailyLimit * 100` with no upper
cap: for any plan with a positive daily limit, a request count of twice the daily
limit yields exactly 200. -/
theorem dailyPercent_uncapped (dailyLimit : Nat) (h : 0 < dailyLimit) :
    dailyPercent (2 * dailyLimit) dailyLimit = 200 := by
  have hq : (dailyLimit : ℚ) ≠ 0 := by exact_mod_cast Nat.pos_iff_ne_zero.mp h
  rw [dailyPercent]
  push_cast
  field_simp
  ring

/-- Witness for C5 at the pro plan's daily limit of 5000. -/
theorem dailyPercent_uncapped_witness :
    0 < planPro.daily_limit ∧ dailyPercent (2 * planPro.daily_limit) planPro.daily_limit = 200 :=
  ⟨by decide, dailyPercent_uncapped planPro.daily_limit (by decide)⟩

/-- C3 counterexample: the claim says the burn rate is `requestCount / elapsedHours`
whenever `elapsedHours > 0`; at the concrete input requestCount = 48,
elapsedHours = 1 the code's rate is 48 / 24 = 2, not 48 / 1. -/
theorem burnRate_not_elapsed_based : burnRatePerHour 48 ≠ (48 : ℚ) / 1 := by
  rw [burnRatePerHour]
  norm_num

/-- C3 as amended: the code's burn rate divides the request count by a fixed 24 hours
(there is no elapsed-time input), and the burn-rate line (with any prediction) is
shown iff that rate is positive, i.e. iff requestCount > 0; no elapsed-time-dependent
null-rate branch exists. -/
theorem burnRate_fixed_24h (requestCount : Nat) :
    burnRatePerHour requestCount = (requestCount : ℚ) / 24
    ∧ (burnInfoShown requestCount = true ↔ 0 < requestCount) := by
  refine ⟨rfl, ?_⟩
  rw [burnInfoShown, decide_eq_true_iff, burnRatePerHour]
  constructor
  · intro h
    by_contra hn
    have h0 : requestCount = 0 := by omega
    rw [h0] at h
    norm_num at h
  · intro h
    apply div_pos
    · exact_mod_cast h
    · norm_num

/-- C6 counterexample: for the concrete assistant message whose usage object carries
input 10 / output 20 and no direct total, the extracted totalTokens is 0, not the
component sum 30 — the `|| 0` chain defaults to 0 instead of summing. -/
theorem extractMessageUsage_no_component_sum :
    (extractMessageUsage entryNoTotal).map UsageRec.totalTokens = some 0
    ∧ (extractMessageUsage entryNoTotal).map
        (fun r => r.inputTokens + r.outputTokens + r.cacheCreationTokens + r.cacheReadTokens)
        = some 30
    ∧ (extractMessageUsage entryNoTotal).map UsageRec.totalTokens
        ≠ (extractMessageUsage entryNoTotal).map
            (fun r => r.inputTokens + r.outputTokens + r.cacheCreationTokens + r.cacheReadTokens) := by
  refine ⟨rfl, rfl, ?_⟩
  decide

/-- C6 as amended: whenever the usage object supplies neither `total_tokens` nor
`totalTokens`, the extracted record's totalTokens is 0 (the `||`-chain's final
default), regardless of the component token fields. -/
theorem extractMessageUsage_totalTokens_default (m : RawEntry) (u : RawUsage)
    (hl : locUsage m = some u) (h1 : u.total_tokens = none) (h2 : u.totalTokens = none) :
    (extractMessageUsage m).map UsageRec.totalTokens = some 0 := by
  simp [extractMessageUsage, hl, jsOr, h1, h2]

/-- Witness for the amended C6 at the concrete no-total message. -/
theorem extractMessageUsage_totalTokens_default_witness :
    locUsage entryNoTotal = some usageNoTotal
    ∧ usageNoTotal.total_tokens = none
    ∧ usageNoTotal.totalTokens = none
    ∧ (extractMessageUsage entryNoTotal).map UsageRec.totalTokens = some 0 :=
  ⟨rfl, rfl, rfl, extractMessageUsage_totalTokens_default entryNoTotal usageNoTotal rfl rfl rfl⟩

/-- C7 counterexample: an invocation with valid timezone "UTC" and unknown plan
identifier "bogus" is not aborted — the configuration phase validates only the
timezone, and `getPlan` silently substitutes the pro plan for the unknown name. -/
theorem unknownPlan_not_rejected :
    isKnownPlan "bogus" = false
    ∧ checkConfigPhase (fun s => s == "UTC") "UTC" = none
    ∧ getPlan "bogus" = planPro := by
  refine ⟨?_, rfl, ?_⟩ <;> decide

/-- C7 as amended: an unknown timezone aborts the invocation with exit code 1 before
any I/O (and a valid one proceeds), but an unknown plan identifier is never
rejected — `getPlan` falls back to the pro plan, since the argument parser ignores
the option's declared choices and `PLANS[name] || PLANS.pro` supplies the default. -/
theorem configValidation_amended :
    (∀ (isValidTz : String → Bool) (tz : String),
        isValidTz tz = false → checkConfigPhase isValidTz tz = some 1)
    ∧ (∀ (isValidTz : String → Bool) (tz : String),
        isValidTz tz = true → checkConfigPhase isValidTz tz = none)
    ∧ (∀ planName : String, isKnownPlan planName = false → getPlan planName = planPro) := by
  refine ⟨?_, ?_, ?_⟩
  · intro f tz h
    simp [checkConfigPhase, h]
  · intro f tz h
    simp [checkConfigPhase, h]
  · intro p h
    rw [getPlan]
    rw [isKnownPlan] at h
    cases hl : PLANS.lookup (jsToLower p) with
    | none => rfl
    | some q => rw [hl] at h; simp at h

/-- Witness for the amended C7: an unknown timezone aborts with 1, a valid one
proceeds, and the unknown plan "bogus" resolves to the pro plan. -/
theorem configValidation_amended_witness :
    ((fun s => s == "UTC") "Not/AZone" = false
      ∧ checkConfigPhase (fun s => s == "UTC") "Not/AZone" = some 1)
    ∧ ((fun s => s == "UTC") "UTC" = true
      ∧ checkConfigPhase (fun s => s == "UTC") "UTC" = none)
    ∧ (isKnownPlan "bogus" = false ∧ getPlan "bogus" = planPro) :=
  ⟨⟨by decide, configValidation_amended.1 _ _ (by decide)⟩,
   ⟨by decide, configValidation_amended.2.1 _ _ (by decide)⟩,
   ⟨by decide, configValidation_amended.2.2 _ (by decide)⟩⟩

/-- C1: `filterByDateRange` is an unfiltering stub. Folding three one-request records
dated on three consecutive days and filtering to the third day's bounds returns the
aggregate unchanged with requestCount 3, although exactly one of the three records
falls inside the range under the inclusive `DateRange.contains` semantics. -/
theorem filterByDateRange_stub_three_days :
    filterByDateRange (extractUsageData entriesThreeDays)
        (some (2 * dayMs)) (some (3 * dayMs - 1))
      = extractUsageData entriesThreeDays
    ∧ (filterByDateRange (extractUsageData entriesThreeDays)
        (some (2 * dayMs)) (some (3 * dayMs - 1))).requestCount = 3
    ∧ (entriesThreeDays.filter
        (fun e => rangeContains (2 * dayMs) (3 * dayMs - 1) (tsOf e))).length = 1 := by
  refine ⟨rfl, ?_, ?_⟩ <;> decide

theorem jsonl_loop (parseLine : String → Option RawEntry) :
    ∀ (lines : List String) (es : List RawEntry) (w : Nat),
      lines.foldl
        (fun acc line =>
          match parseLine line with
          | some entry => (acc.1 ++ [entry], acc.2)
          | none => (acc.1, acc.2 + 1))
        (es, w)
      = (es ++ lines.filterMap parseLine,
         w + (lines.filter (fun l => (parseLine l).isNone)).length) := by
  intro lines
  induction lines with
  | nil => simp
  | cons l t ih =>
    intro es w
    rw [List.foldl_cons]
    cases hp : parseLine l with
    | some entry =>
      simp only [hp]
      rw [ih]
      simp [List.filterMap_cons, hp, List.filter_cons]
    | none =>
      simp only [hp]
      rw [ih]
      simp [List.filterMap_cons, hp, List.filter_cons]
      omega

/-- C8: the JSONL line loop is total (never throws) and fault-tolerant — its output
entry list is exactly the parses of the valid non-blank lines, in order, each
malformed line contributing one recorded warning and nothing else, so any aggregate
built from the output reflects exactly the valid lines. -/
theorem processJSONLLines_skips_malformed (parseLine : String → Option RawEntry)
    (rawLines : List String) :
    (processJSONLLines parseLine rawLines).1
        = (rawLines.filter (fun l => l.trim != "")).filterMap parseLine
    ∧ (processJSONLLines parseLine rawLines).2
        = ((rawLines.filter (fun l => l.trim != "")).filter
            (fun l => (parseLine l).isNone)).length
    ∧ extractUsageData (processJSONLLines parseLine rawLines).1
        = extractUsageData ((rawLines.filter (fun l => l.trim != "")).filterMap parseLine) := by
  have h := jsonl_loop parseLine (rawLines.filter (fun l => l.trim != "")) [] 0
  have h1 : processJSONLLines parseLine rawLines
      = ((rawLines.filter (fun l => l.trim != "")).filterMap parseLine,
         ((rawLines.filter (fun l => l.trim != "")).filter
            (fun l => (parseLine l).isNone)).length) := by
    rw [processJSONLLines]
    rw [h]
    simp
  rw [h1]
  exact ⟨rfl, rfl, rfl⟩

theorem lookup_filter_ne (k other : String × Int) (h : k ≠ other) :
    ∀ c : List ((String × Int) × CacheEntry),
      (c.filter (fun p => p.1 != other)).lookup k = c.lookup k := by
  intro c
  induction c with
  | nil => rfl
  | cons a t ih =>
    by_cases ha : a.1 = other
    · have hne : (k == a.1) = false := beq_eq_false_iff_ne.mpr (ha ▸ h)
      rw [List.filter_cons_of_neg (by simp [ha])]
      rw [ih]
      cases a with
      | mk a1 a2 => simp [List.lookup, hne]
    · rw [List.filter_cons_of_pos (by simp [ha])]
      cases a with
      | mk a1 a2 =>
        cases hk : (k == a1) with
        | true => simp [List.lookup, hk]
        | false => simp [List.lookup, hk, ih]

theorem lookup_mapSet_self (c : List ((String × Int) × CacheEntry)) (k : String × Int)
    (v : CacheEntry) : (mapSet c k v).lookup k = some v := by
  simp [mapSet, List.lookup]

theorem lookup_mapSet_ne (c : List ((String × Int) × CacheEntry)) (k other : String × Int)
    (v : CacheEntry) (h : k ≠ other) : (mapSet c other v).lookup k = c.lookup k := by
  have hb : (k == other) = false := beq_eq_false_iff_ne.mpr h
  rw [mapSet]
  simp only [List.lookup, hb]
  exact lookup_filter_ne k other h c

theorem readJSONLFile_miss (parseLine : String → Option RawEntry) (cacheTimeout : Int)
    (fs : String → List String × Int) (now : Int) (st : ReaderState) (filePath : String)
    (h : List.lookup (filePath, (fs filePath).2) st.cache = none) :
    readJSONLFile parseLine cacheTimeout fs now st filePath
      = ((processJSONLLines parseLine (fs filePath).1).1, true,
         ⟨mapSet st.cache (filePath, (fs filePath).2)
            ⟨(processJSONLLines parseLine (fs filePath).1).1, now⟩⟩) := by
  rw [readJSONLFile]
  simp [h]

theorem readJSONLFile_state (parseLine : String → Option RawEntry) (cacheTimeout : Int)
    (fs : String → List String × Int) (now : Int) (st : ReaderState) (filePath : String) :
    (readJSONLFile parseLine cacheTimeout fs now st filePath).2.2 = st
    ∨ (readJSONLFile parseLine cacheTimeout fs now st filePath).2.2
      = ⟨mapSet st.cache (filePath, (fs filePath).2)
           ⟨(processJSONLLines parseLine (fs filePath).1).1, now⟩⟩ := by
  rw [readJSONLFile]
  cases hl : List.lookup (filePath, (fs filePath).2) st.cache with
  | none => right; simp [hl]
  | some cached =>
    by_cases hf : now - cached.timestamp < cacheTimeout
    · left; simp [hl, hf]
    · right; simp [hl, hf]

/-- C9: cache correctness of `readJSONLFile`. First, reading a file, then mutating
its content and modification time (a second filesystem state whose mtime for the
path differs), then reading again yields the newly parsed content with a fresh
parse — the cache key includes the mtime, so the old entry is not consulted.
Second, reading an unchanged file twice within the cache timeout performs no second
parse: the second read returns the cached records of the first, which are the
parsed content. -/
theorem readJSONLFile_cache_correct :
    (∀ (parseLine : String → Option RawEntry) (cacheTimeout : Int)
        (fs1 fs2 : String → List String × Int) (now1 now2 : Int)
        (st : ReaderState) (filePath : String),
        (fs2 filePath).2 ≠ (fs1 filePath).2 →
        List.lookup (filePath, (fs2 filePath).2) st.cache = none →
        (readJSONLFile parseLine cacheTimeout fs2 now2
            (readJSONLFile parseLine cacheTimeout fs1 now1 st filePath).2.2 filePath).1
          = (processJSONLLines parseLine (fs2 filePath).1).1
        ∧ (readJSONLFile parseLine cacheTimeout fs2 now2
            (readJSONLFile parseLine cacheTimeout fs1 now1 st filePath).2.2 filePath).2.1
          = true)
    ∧ (∀ (parseLine : String → Option RawEntry) (cacheTimeout : Int)
        (fs : String → List String × Int) (now1 now2 : Int)
        (st : ReaderState) (filePath : String),
        List.lookup (filePath, (fs filePath).2) st.cache = none →
        now2 - now1 < cacheTimeout →
        (readJSONLFile parseLine cacheTimeout fs now2
            (readJSONLFile parseLine cacheTimeout fs now1 st filePath).2.2 filePath).1
          = (readJSONLFile parseLine cacheTimeout fs now1 st filePath).1
        ∧ (readJSONLFile parseLine cacheTimeout fs now2
            (readJSONLFile parseLine cacheTimeout fs now1 st filePath).2.2 filePath).2.1
          = false
        ∧ (readJSONLFile parseLine cacheTimeout fs now1 st filePath).1
          = (processJSONLLines parseLine (fs filePath).1).1) := by
  constructor
  · intro parseLine ct fs1 fs2 now1 now2 st filePath hmt hlk
    have hkey : ((filePath, (fs2 filePath).2) : String × Int)
        ≠ (filePath, (fs1 filePath).2) := by
      simp only [ne_eq, Prod.mk.injEq, not_and]
      intro _
      exact hmt
    have hnone : List.lookup (filePath, (fs2 filePath).2)
        (readJSONLFile parseLine ct fs1 now1 st filePath).2.2.cache = none := by
      rcases readJSONLFile_state parseLine ct fs1 now1 st filePath with hst | hst
      · rw [hst]; exact hlk
      · rw [hst]
        exact (lookup_mapSet_ne st.cache _ _ _ hkey).trans hlk
    rw [readJSONLFile_miss parseLine ct fs2 now2 _ filePath hnone]
    exact ⟨rfl, rfl⟩
  · intro parseLine ct fs now1 now2 st filePath hlk hfresh
    rw [readJSONLFile_miss parseLine ct fs now1 st filePath hlk]
    have hs : List.lookup (filePath, (fs filePath).2)
        (mapSet st.cache (filePath, (fs filePath).2)
          ⟨(processJSONLLines parseLine (fs filePath).1).1, now1⟩) =
        some ⟨(processJSONLLines parseLine (fs filePath).1).1, now1⟩ :=
      lookup_mapSet_self _ _ _
    rw [readJSONLFile]
    simp [hs, hfresh]

/-- Witness for C9 at a concrete reader: empty initial cache, a one-path filesystem
whose mtime changes from 0 to 1 between the reads of the first part, and two reads
at times 0 and 1 against a 10ms timeout in the second part. -/
theorem readJSONLFile_cache_correct_witness :
    (((fun _ : String => (([] : List String), (1 : Int))) "p").2
        ≠ ((fun _ : String => (([] : List String), (0 : Int))) "p").2
      ∧ List.lookup ("p", ((fun _ : String => (([] : List String), (1 : Int))) "p").2)
          (ReaderState.mk []).cache = none
      ∧ (readJSONLFile (fun _ => none) 10 (fun _ => ([], 1)) 1
          (readJSONLFile (fun _ => none) 10 (fun _ => ([], 0)) 0 ⟨[]⟩ "p").2.2 "p").1
        = (processJSONLLines (fun _ => none) ((fun _ : String => (([] : List String), (1 : Int))) "p").1).1)
    ∧ (List.lookup ("p", ((fun _ : String => (([] : List String), (0 : Int))) "p").2)
          (ReaderState.mk []).cache = none
      ∧ ((1 : Int) - 0 < 10)
      ∧ (readJSONLFile (fun _ => none) 10 (fun _ => ([], 0)) 1
          (readJSONLFile (fun _ => none) 10 (fun _ => ([], 0)) 0 ⟨[]⟩ "p").2.2 "p").2.1
        = false) :=
  ⟨⟨by decide, rfl,
    (readJSONLFile_cache_correct.1 (fun _ => none) 10 (fun _ => ([], 0)) (fun _ => ([], 1))
      0 1 ⟨[]⟩ "p" (by decide) rfl).1⟩,
   ⟨rfl, by decide,
    (readJSONLFile_cache_correct.2 (fun _ => none) 10 (fun _ => ([], 0)) 0 1 ⟨[]⟩ "p"
      rfl (by decide)).2.1⟩⟩
